import Mathlib

/-!
Shallow embedding of the backend-process supervisor in
`src/frontend/src-tauri/src/lib.rs` of the nexa-thinking-framework
repository, together with theorems settling the specification claims.

Filesystem paths are modelled as lists of components (`FsPath`); `join`
is list append of a component, and a filesystem state is a decidable
existence predicate `FsPath → Bool` (the code only ever calls
`path.exists()`). Platform choice (`cfg!(target_os = "windows")`) is a
boolean parameter. Host-framework inputs (resource directory, current
executable path, app-local-data directory) are `Option FsPath`
parameters, mirroring the fallible `resource_dir()` / `current_exe()` /
`app_local_data_dir()` calls. Spawning is modelled by the `Spawn` record
of the command the code issues (program, arguments, working directory,
added environment variables).
-/

namespace Nexa

/-- A filesystem path as its list of components. -/
abbrev FsPath := List String

/-- Rust `Path::parent`: `none` on an empty path, otherwise drop the
last component. -/
def parent : FsPath → Option FsPath
  | [] => none
  | l => some l.dropLast

/-- The platform executable name, lib.rs lines 8-12: a `.exe` suffix on
Windows, none elsewhere. -/
def binary_name (windows : Bool) : String :=
  if windows then ("nexa-backend.exe") else ("nexa-backend")

/-- Candidates pushed for the resource-directory anchor, lib.rs
lines 16-21: nested `binaries/nexa-backend/<name>`, flattened
`nexa-backend/<name>`, and bare `<name>`. -/
def resourceCandidates (name : String) (resource_dir : FsPath) : List FsPath :=
  [resource_dir ++ ["binaries", "nexa-backend", name],
   resource_dir ++ ["nexa-backend", name],
   resource_dir ++ [name]]

/-- Candidates pushed for the current-executable anchor, lib.rs
lines 23-38: six layouts under the executable's directory, and when that
directory itself has a parent, three more under the parent. -/
def exeCandidates (name : String) (exe_path : FsPath) : List FsPath :=
  match parent exe_path with
  | none => []
  | some exe_dir =>
    [exe_dir ++ ["binaries", "nexa-backend", name],
     exe_dir ++ ["nexa-backend", name],
     exe_dir ++ [name],
     exe_dir ++ ["resources", "binaries", "nexa-backend", name],
     exe_dir ++ ["resources", "nexa-backend", name],
     exe_dir ++ ["_up_", "resources", "binaries", "nexa-backend", name]]
    ++ (match parent exe_dir with
        | none => []
        | some parent_dir =>
          [parent_dir ++ ["resources", "binaries", "nexa-backend", name],
           parent_dir ++ ["resources", "nexa-backend", name],
           parent_dir ++ ["binaries", "nexa-backend", name]])

/-- Candidates pushed for the app-local-data anchor, lib.rs lines 40-44:
only the nested and flattened layouts are pushed there. -/
def appDataCandidates (name : String) (app_data : FsPath) : List FsPath :=
  [app_data ++ ["binaries", "nexa-backend", name],
   app_data ++ ["nexa-backend", name]]

/-- The full ordered candidate list of `find_backend_binary`, lib.rs
lines 14-44: each available anchor contributes its block, in source
order; an unavailable anchor is skipped. -/
def searchPaths (name : String)
    (resource_dir current_exe app_local_data : Option FsPath) : List FsPath :=
  (match resource_dir with
   | none => []
   | some rd => resourceCandidates name rd)
  ++ (match current_exe with
      | none => []
      | some exe => exeCandidates name exe)
  ++ (match app_local_data with
      | none => []
      | some ad => appDataCandidates name ad)

/-- The search loop of lib.rs lines 46-59: return the first path whose
existence check succeeds, `none` if the list is exhausted. -/
def firstExisting (fs : FsPath → Bool) : List FsPath → Option FsPath
  | [] => none
  | p :: rest => if fs p then some p else firstExisting fs rest

/-- The locator `find_backend_binary`, lib.rs lines 7-73: build the
candidate list and return the first existing candidate (the logging and
the diagnostic dump on total failure have no effect on the result). -/
def find_backend_binary (windows : Bool) (fs : FsPath → Bool)
    (resource_dir current_exe app_local_data : Option FsPath) : Option FsPath :=
  firstExisting fs (searchPaths (binary_name windows) resource_dir current_exe app_local_data)

theorem firstExisting_eq_none_iff (fs : FsPath → Bool) (l : List FsPath) :
    firstExisting fs l = none ↔ ∀ p ∈ l, fs p = false := by
  induction l with
  | nil => simp [firstExisting]
  | cons q rest ih =>
    cases h : fs q with
    | false => simp [firstExisting, h, ih]
    | true => simp [firstExisting, h]

theorem firstExisting_eq_some_iff (fs : FsPath → Bool) (l : List FsPath) (p : FsPath) :
    firstExisting fs l = some p ↔
      ∃ l₁ l₂, l = l₁ ++ p :: l₂ ∧ fs p = true ∧ ∀ q ∈ l₁, fs q = false := by
  induction l with
  | nil =>
    simp only [firstExisting]
    constructor
    · intro h; cases h
    · rintro ⟨l₁, l₂, heq, -, -⟩
      exact absurd (List.append_eq_nil.mp heq.symm).2 (List.cons_ne_nil p l₂)
  | cons q rest ih =>
    cases h : fs q with
    | true =>
      simp only [firstExisting]
      rw [if_pos h]
      constructor
      · intro hq
        obtain rfl := Option.some.inj hq
        exact ⟨[], rest, rfl, h, by simp⟩
      · rintro ⟨l₁, l₂, heq, hp, hall⟩
        cases l₁ with
        | nil =>
          rw [List.nil_append] at heq
          rw [(List.cons.inj heq).1]
        | cons a t =>
          rw [List.cons_append] at heq
          have ha : q = a := (List.cons.inj heq).1
          have hfa := hall a (List.mem_cons_self a t)
          rw [← ha, h] at hfa
          cases hfa
    | false =>
      simp only [firstExisting]
      rw [if_neg (by simp [h]), ih]
      constructor
      · rintro ⟨l₁, l₂, rfl, hp, hall⟩
        refine ⟨q :: l₁, l₂, rfl, hp, ?_⟩
        intro r hr
        rcases List.mem_cons.mp hr with rfl | hr
        · exact h
        · exact hall r hr
      · rintro ⟨l₁, l₂, heq, hp, hall⟩
        cases l₁ with
        | nil =>
          have hq : q = p := (List.cons.inj heq).1
          rw [hq] at h
          rw [hp] at h
          cases h
        | cons a t =>
          obtain ⟨-, hrest⟩ := List.cons.inj heq
          refine ⟨t, l₂, hrest, hp, ?_⟩
          intro r hr
          exact hall r (List.mem_cons_of_mem a hr)

/-- Claim C1: for every filesystem state and candidate list built by the
locator, `find_backend_binary` returns `some p` exactly when `p` is the
first candidate, in construction order, whose existence check succeeds,
and returns `none` exactly when no candidate exists; in particular, when
an anchor directory `A` contains `A/binaries/nexa-backend/<name>` but
not `A/nexa-backend/<name>`, the former path is returned. -/
theorem C1_first_existing_candidate (windows : Bool) (fs : FsPath → Bool)
    (resource_dir current_exe app_local_data : Option FsPath) :
    (∀ p, find_backend_binary windows fs resource_dir current_exe app_local_data = some p ↔
      ∃ l₁ l₂, searchPaths (binary_name windows) resource_dir current_exe app_local_data
          = l₁ ++ p :: l₂ ∧ fs p = true ∧ ∀ q ∈ l₁, fs q = false) ∧
    (find_backend_binary windows fs resource_dir current_exe app_local_data = none ↔
      ∀ p ∈ searchPaths (binary_name windows) resource_dir current_exe app_local_data,
        fs p = false) ∧
    (∀ A : FsPath,
      fs (A ++ ["binaries", "nexa-backend", binary_name windows]) = true →
      fs (A ++ ["nexa-backend", binary_name windows]) = false →
      find_backend_binary windows fs (some A) none none =
        some (A ++ ["binaries", "nexa-backend", binary_name windows])) := by
  refine ⟨fun p => firstExisting_eq_some_iff fs _ p, firstExisting_eq_none_iff fs _, ?_⟩
  intro A hnested _
  simp [find_backend_binary, searchPaths, resourceCandidates, firstExisting, hnested]

theorem C1_first_existing_candidate_witness :
    find_backend_binary false
        (fun p => decide (p = ["A", "binaries", "nexa-backend", "nexa-backend"]))
        (some ["A"]) none none =
      some ["A", "binaries", "nexa-backend", "nexa-backend"] :=
  (C1_first_existing_candidate false
      (fun p => decide (p = ["A", "binaries", "nexa-backend", "nexa-backend"]))
      (some ["A"]) none none).2.2 ["A"] (by decide) (by decide)

/-- Claim C7: when none of the three anchor directories is available the
candidate list is empty and the locator returns `none`. -/
theorem C7_empty_candidates_not_found (windows : Bool) (fs : FsPath → Bool) :
    searchPaths (binary_name windows) none none none = [] ∧
    find_backend_binary windows fs none none none = none :=
  ⟨rfl, rfl⟩

/-- Claim C4 as stated is false: the app-local-data anchor gets no bare
layout. Concretely, with only the app-local-data anchor available at
`["D"]`, the bare candidate `["D", "nexa-backend"]` is not in the list. -/
theorem C4_counterexample :
    (["D", "nexa-backend"] : FsPath) ∉
      searchPaths (binary_name false) none none (some ["D"]) := by
  decide

/-- Claim C4, amended: the resource-directory anchor and the
executable-directory anchor each contribute the nested
`binaries/nexa-backend/<name>`, flattened `nexa-backend/<name>`, and
bare `<name>` layouts, but the app-local-data anchor contributes only
the nested and flattened layouts and never the bare one. -/
theorem C4_anchor_layouts (name : String) (A : FsPath) :
    (A ++ ["binaries", "nexa-backend", name]) ∈ resourceCandidates name A ∧
    (A ++ ["nexa-backend", name]) ∈ resourceCandidates name A ∧
    (A ++ [name]) ∈ resourceCandidates name A ∧
    (∀ exe_path exe_dir : FsPath, parent exe_path = some exe_dir →
      (exe_dir ++ ["binaries", "nexa-backend", name]) ∈ exeCandidates name exe_path ∧
      (exe_dir ++ ["nexa-backend", name]) ∈ exeCandidates name exe_path ∧
      (exe_dir ++ [name]) ∈ exeCandidates name exe_path) ∧
    (A ++ ["binaries", "nexa-backend", name]) ∈ appDataCandidates name A ∧
    (A ++ ["nexa-backend", name]) ∈ appDataCandidates name A ∧
    (A ++ [name]) ∉ appDataCandidates name A := by
  refine ⟨by simp [resourceCandidates], by simp [resourceCandidates],
    by simp [resourceCandidates], ?_, by simp [appDataCandidates],
    by simp [appDataCandidates], ?_⟩
  · intro exe_path exe_dir hpar
    refine ⟨?_, ?_, ?_⟩ <;>
      · simp only [exeCandidates, hpar]
        cases parent exe_dir <;> simp
  · intro hmem
    simp only [appDataCandidates, List.mem_cons, List.mem_singleton] at hmem
    rcases hmem with h | h | h
    · have := congrArg List.length h
      simp at this
    · have := congrArg List.length h
      simp at this
    · cases h

theorem C4_anchor_layouts_witness :
    (["E", "nexa-backend"] : FsPath) ∈ exeCandidates ("nexa-backend") ["E", "app"] :=
  (((C4_anchor_layouts ("nexa-backend") []).2.2.2.1 ["E", "app"] ["E"] (by decide)).2.2)

/-- The two launch procedures, as selected once at startup. -/
inductive LaunchChoice where
  | bundled (path : FsPath)
  | dev
deriving DecidableEq

/-- The launch-mode selection in `run`'s setup closure, lib.rs
lines 195-200: bundled when the locator returned a path, the dev
fallback otherwise. -/
def chooseLaunch (located : Option FsPath) : LaunchChoice :=
  match located with
  | some p => LaunchChoice.bundled p
  | none => LaunchChoice.dev

/-- Claim C3: the bundled procedure is attempted exactly when the
locator returns a path, the dev fallback exactly when it returns none,
and never both in one execution. -/
theorem C3_launch_mode_exclusive (windows : Bool) (fs : FsPath → Bool)
    (resource_dir current_exe app_local_data : Option FsPath) :
    ((∃ p, chooseLaunch (find_backend_binary windows fs resource_dir current_exe app_local_data)
        = LaunchChoice.bundled p) ↔
      ∃ p, find_backend_binary windows fs resource_dir current_exe app_local_data = some p) ∧
    (chooseLaunch (find_backend_binary windows fs resource_dir current_exe app_local_data)
        = LaunchChoice.dev ↔
      find_backend_binary windows fs resource_dir current_exe app_local_data = none) ∧
    ¬ ((∃ p, chooseLaunch (find_backend_binary windows fs resource_dir current_exe app_local_data)
          = LaunchChoice.bundled p) ∧
       chooseLaunch (find_backend_binary windows fs resource_dir current_exe app_local_data)
          = LaunchChoice.dev) := by
  cases h : find_backend_binary windows fs resource_dir current_exe app_local_data <;>
    simp [chooseLaunch, h]

theorem C3_launch_mode_exclusive_witness :
    chooseLaunch (find_backend_binary false (fun _ => false) none none none)
      = LaunchChoice.dev :=
  (C3_launch_mode_exclusive false (fun _ => false) none none none).2.1.mpr rfl

/-- The command a launch procedure hands to the OS: program, arguments,
working directory, and the environment variable assignments added on top
of the inherited environment. -/
structure Spawn where
  program : FsPath
  args : List String
  cwd : Option FsPath
  env : List (String × String)
deriving DecidableEq

/-- The bundled launch `start_backend_bundled`, lib.rs lines 91-137:
working directory is the binary's containing directory (`none` when the
path has no parent), the env additions are `PORT=8000` then
`HOST=127.0.0.1`, and no arguments are passed. The Windows branch differs
only in the no-console creation flag, which is not part of the command
model. Whether the OS then accepts the spawn is outside the model: the
result records the command issued. -/
def start_backend_bundled (binary_path : FsPath) : Option Spawn :=
  match parent binary_path with
  | none => none
  | some working_dir =>
    some (Spawn.mk binary_path [] (some working_dir)
      [("PORT", "8000"), ("HOST", "127.0.0.1")])

/-- Claim C6: for every binary path with a containing directory, the
bundled launch starts the child in that directory, with exactly the two
env additions `PORT=8000` and `HOST=127.0.0.1`, and with no arguments. -/
theorem C6_bundled_spawn_shape (binary_path working_dir : FsPath)
    (h : parent binary_path = some working_dir) :
    start_backend_bundled binary_path =
      some (Spawn.mk binary_path [] (some working_dir)
        [("PORT", "8000"), ("HOST", "127.0.0.1")]) ∧
    ∀ s, start_backend_bundled binary_path = some s →
      s.args = [] ∧ s.cwd = some working_dir ∧ s.env.length = 2 ∧
      ("HOST", "127.0.0.1") ∈ s.env ∧ ("PORT", "8000") ∈ s.env := by
  have hb : start_backend_bundled binary_path =
      some (Spawn.mk binary_path [] (some working_dir)
        [("PORT", "8000"), ("HOST", "127.0.0.1")]) := by
    simp [start_backend_bundled, h]
  refine ⟨hb, ?_⟩
  intro s hs
  rw [hb] at hs
  obtain rfl := Option.some.inj hs
  exact ⟨rfl, rfl, rfl, by simp, by simp⟩

theorem C6_bundled_spawn_shape_witness :
    start_backend_bundled ["opt", "app", "nexa-backend"] =
      some (Spawn.mk ["opt", "app", "nexa-backend"] [] (some ["opt", "app"])
        [("PORT", "8000"), ("HOST", "127.0.0.1")]) :=
  (C6_bundled_spawn_shape ["opt", "app", "nexa-backend"] ["opt", "app"] (by decide)).1

/-- Five chained `parent` steps, lib.rs lines 141-146. -/
def parent5 (p : FsPath) : Option FsPath :=
  ((((parent p).bind parent).bind parent).bind parent).bind parent

/-- The interpreter path probed by the dev fallback, lib.rs
lines 154-158: `.venv/Scripts/python.exe` under the backend directory on
Windows, `.venv/bin/python` elsewhere. -/
def devPython (windows : Bool) (backend_dir : FsPath) : FsPath :=
  if windows then backend_dir ++ [".venv", "Scripts", "python.exe"]
  else backend_dir ++ [".venv", "bin", "python"]

/-- The dev fallback `start_backend_dev`, lib.rs lines 139-171: resolve
the executable path, walk five parents to the project root, require the
`backend` subdirectory to exist, require the venv interpreter to exist,
then spawn it with the fixed uvicorn arguments from the backend
directory. Each early `?`/`return None` is a `none` result. -/
def start_backend_dev (windows : Bool) (fs : FsPath → Bool)
    (current_exe : Option FsPath) : Option Spawn :=
  match current_exe with
  | none => none
  | some exe_path =>
    match parent5 exe_path with
    | none => none
    | some project_root =>
      let backend_dir := project_root ++ ["backend"]
      if fs backend_dir = true then
        let venv_python := devPython windows backend_dir
        if fs venv_python = true then
          some (Spawn.mk venv_python
            ["-m", "uvicorn", "main:app", "--host", "127.0.0.1", "--port", "8000"]
            (some backend_dir) [])
        else none
      else none

/-- Claim C5: past the root and backend-directory checks, the dev
fallback returns no handle when the interpreter is missing, and
otherwise spawns exactly that interpreter with the fixed uvicorn
arguments binding 127.0.0.1:8000, from the backend directory. -/
theorem C5_dev_fallback_interpreter (windows : Bool) (fs : FsPath → Bool)
    (exe_path project_root : FsPath)
    (h5 : parent5 exe_path = some project_root)
    (hb : fs (project_root ++ ["backend"]) = true) :
    (fs (devPython windows (project_root ++ ["backend"])) = false →
      start_backend_dev windows fs (some exe_path) = none) ∧
    (fs (devPython windows (project_root ++ ["backend"])) = true →
      start_backend_dev windows fs (some exe_path) =
        some (Spawn.mk (devPython windows (project_root ++ ["backend"]))
          ["-m", "uvicorn", "main:app", "--host", "127.0.0.1", "--port", "8000"]
          (some (project_root ++ ["backend"])) [])) := by
  constructor
  · intro hp
    simp [start_backend_dev, h5, hb, hp]
  · intro hp
    simp [start_backend_dev, h5, hb, hp]

theorem C5_dev_fallback_interpreter_witness :
    start_backend_dev false
        (fun p => decide (p = ["home", "backend"] ∨
          p = ["home", "backend", ".venv", "bin", "python"]))
        (some ["home", "user", "proj", "target", "debug", "app"]) =
      some (Spawn.mk ["home", "backend", ".venv", "bin", "python"]
        ["-m", "uvicorn", "main:app", "--host", "127.0.0.1", "--port", "8000"]
        (some ["home", "backend"]) []) :=
  (C5_dev_fallback_interpreter false
      (fun p => decide (p = ["home", "backend"] ∨
        p = ["home", "backend", ".venv", "bin", "python"]))
      ["home", "user", "proj", "target", "debug", "app"] ["home"]
      (by decide) (by decide)).2 (by decide)

theorem parent5_eq_none_of_short (l : FsPath) (h : l.length < 5) :
    parent5 l = none := by
  match l with
  | [] => rfl
  | [a] => rfl
  | [a, b] => rfl
  | [a, b, c] => rfl
  | [a, b, c, d] => rfl
  | a :: b :: c :: d :: e :: t => simp at h; omega

/-- Claim C10: the dev fallback fails before the interpreter probe when
the executable path cannot be resolved, when it has fewer than five
parent components, or when the backend directory does not exist; in each
case it returns `none` for every filesystem state, in particular also
for states in which the interpreter does exist, so nothing is spawned. -/
theorem C10_dev_fallback_early_failures (windows : Bool) (fs : FsPath → Bool) :
    start_backend_dev windows fs none = none ∧
    (∀ exe_path : FsPath, exe_path.length < 5 →
      start_backend_dev windows fs (some exe_path) = none) ∧
    (∀ exe_path project_root : FsPath, parent5 exe_path = some project_root →
      fs (project_root ++ ["backend"]) = false →
      start_backend_dev windows fs (some exe_path) = none) := by
  refine ⟨rfl, ?_, ?_⟩
  · intro exe_path hlen
    simp [start_backend_dev, parent5_eq_none_of_short exe_path hlen]
  · intro exe_path project_root h5 hb
    simp [start_backend_dev, h5, hb]

theorem C10_dev_fallback_early_failures_witness :
    start_backend_dev false (fun _ => true) (some ["a", "b"]) = none :=
  (C10_dev_fallback_early_failures false (fun _ => true)).2.1 ["a", "b"] (by decide)

/-- An OS process handle (`std::process::Child`), identified by pid. -/
structure Child where
  pid : Nat
deriving DecidableEq

/-- The pids of the processes currently running on the machine. -/
abbrev World := List Nat

/-- Effect of `child.kill()` followed by `child.wait()` on the running
processes: on kill success the child's pid stops running; on kill
failure the world is unchanged. -/
def killEffect (killRes : Except String Unit) (w : World) (c : Child) : World :=
  match killRes with
  | Except.ok _ => w.filter (fun p => decide (p ≠ c.pid))
  | Except.error _ => w

/-- The shutdown procedure `stop_backend`, lib.rs lines 173-179: with no
stored handle it does nothing; with a stored handle it issues
`child.kill()` and `child.wait()`, discarding both results with
`let _ =`, and leaves the slot as it was — the handle is never taken out
of the `Option`. The `Except` result is the procedure's own outcome:
because the operation results are discarded, it is `ok` whatever
`killRes` and `waitRes` are. -/
def stop_backend (killRes waitRes : Except String Unit) (w : World)
    (process : Option Child) : Except String (World × Option Child) :=
  match process with
  | none => Except.ok (w, none)
  | some child => Except.ok (killEffect killRes w child, some child)

/-- The handle store in `run`'s setup closure, lib.rs line 209:
`*state.0.lock().unwrap() = backend`. -/
def storeBackend (backend : Option Child) : Option Child :=
  backend

/-- Claim C2 as stated is false: after shutdown the slot is not empty.
With pid 1 running and the handle stored, shutdown kills the process but
the returned slot still holds the handle, which is not `none`. -/
theorem C2_counterexample :
    stop_backend (Except.ok ()) (Except.ok ()) [1] (some (Child.mk 1)) =
      Except.ok (([] : World), some (Child.mk 1)) ∧
    some (Child.mk 1) ≠ (none : Option Child) :=
  ⟨rfl, by simp⟩

/-- Claim C2, amended: after a successful launch exactly one handle is
stored, and after the shutdown procedure runs on the host exit event the
underlying process is no longer running, but the slot still holds the
(now terminated) handle — it is never cleared to `none`. -/
theorem C2_store_and_terminate (c : Child) (w : World) :
    storeBackend (some c) = some c ∧
    stop_backend (Except.ok ()) (Except.ok ()) w (some c) =
      Except.ok (killEffect (Except.ok ()) w c, some c) ∧
    c.pid ∉ killEffect (Except.ok ()) w c := by
  refine ⟨rfl, rfl, ?_⟩
  intro hmem
  simp [killEffect, List.mem_filter] at hmem

theorem C2_store_and_terminate_witness :
    storeBackend (some (Child.mk 1)) = some (Child.mk 1) ∧
    stop_backend (Except.ok ()) (Except.ok ()) [1, 2] (some (Child.mk 1)) =
      Except.ok (killEffect (Except.ok ()) [1, 2] (Child.mk 1), some (Child.mk 1)) ∧
    (1 : Nat) ∉ killEffect (Except.ok ()) [1, 2] (Child.mk 1) :=
  C2_store_and_terminate (Child.mk 1) [1, 2]

/-- Claim C8: shutdown with no stored handle is a no-op that returns
normally, and with a stored handle it returns normally whatever the
outcomes of the kill and the wait are, since both results are
discarded. -/
theorem C8_shutdown_swallows_failures (killRes waitRes : Except String Unit)
    (w : World) :
    stop_backend killRes waitRes w none = Except.ok (w, none) ∧
    ∀ c : Child, ∃ r : World × Option Child,
      stop_backend killRes waitRes w (some c) = Except.ok r ∧ r.2 = some c :=
  ⟨rfl, fun c => ⟨(killEffect killRes w c, some c), rfl, rfl⟩⟩

/-- The diagnostic dump `list_dir_recursive`, lib.rs lines 75-89:
return immediately past depth 3, otherwise log each entry of the
directory at the current depth and recurse into subdirectories at
depth + 1. The directory structure is an arbitrary `readDir` function
(so cyclic symlinked trees are included), `isDir` tells which entries
are directories, and the result is the list of logged entries paired
with the depth they were logged at. -/
def list_dir_recursive (readDir : FsPath → List FsPath) (isDir : FsPath → Bool)
    (dir : FsPath) (depth : Nat) : List (Nat × FsPath) :=
  if h : depth > 3 then []
  else
    (readDir dir).flatMap (fun p =>
      (depth, p) :: (if isDir p = true then list_dir_recursive readDir isDir p (depth + 1) else []))
termination_by 4 - depth
decreasing_by omega

theorem list_dir_recursive_past_bound (readDir : FsPath → List FsPath)
    (isDir : FsPath → Bool) (dir : FsPath) (depth : Nat) (h : 3 < depth) :
    list_dir_recursive readDir isDir dir depth = [] := by
  unfold list_dir_recursive
  exact dif_pos h

theorem list_dir_recursive_depth_mem (readDir : FsPath → List FsPath)
    (isDir : FsPath → Bool) :
    ∀ n dir depth, 4 - depth ≤ n →
      ∀ pr ∈ list_dir_recursive readDir isDir dir depth,
        depth ≤ pr.1 ∧ pr.1 ≤ 3 := by
  intro n
  induction n with
  | zero =>
    intro dir depth hn pr hpr
    rw [list_dir_recursive_past_bound readDir isDir dir depth (by omega)] at hpr
    cases hpr
  | succ m ih =>
    intro dir depth hn pr hpr
    by_cases h : 3 < depth
    · rw [list_dir_recursive_past_bound readDir isDir dir depth h] at hpr
      cases hpr
    · rw [list_dir_recursive] at hpr
      rw [dif_neg h] at hpr
      rw [List.mem_flatMap] at hpr
      obtain ⟨p, hp, hmem⟩ := hpr
      rcases List.mem_cons.mp hmem with rfl | hrec
      · exact ⟨Nat.le_refl depth, by omega⟩
      · rcases hd : isDir p with hfalse | htrue
        · rw [hd] at hrec
          simp at hrec
        · rw [hd] at hrec
          rw [if_pos rfl] at hrec
          have := ih p (depth + 1) (by omega) pr hrec
          exact ⟨by omega, this.2⟩

/-- Claim C9: the diagnostic enumeration is total (it is a function in
this embedding), immediately returns nothing once the depth exceeds the
bound 3, and every entry it logs — on any tree, including cyclic ones,
since `readDir` is arbitrary — lies at a depth between the starting
depth and 3. -/
theorem C9_depth_bounded_enumeration (readDir : FsPath → List FsPath)
    (isDir : FsPath → Bool) :
    (∀ dir depth, 3 < depth → list_dir_recursive readDir isDir dir depth = []) ∧
    (∀ dir depth pr, pr ∈ list_dir_recursive readDir isDir dir depth →
      depth ≤ pr.1 ∧ pr.1 ≤ 3) :=
  ⟨fun dir depth h => list_dir_recursive_past_bound readDir isDir dir depth h,
   fun dir depth pr hpr =>
     list_dir_recursive_depth_mem readDir isDir (4 - depth) dir depth
       (Nat.le_refl _) pr hpr⟩

theorem C9_depth_bounded_enumeration_witness :
    list_dir_recursive (fun _ => [["x"]]) (fun _ => true) ["x"] 4 = [] :=
  (C9_depth_bounded_enumeration (fun _ => [["x"]]) (fun _ => true)).1 ["x"] 4 (by decide)

end Nexa
